import Mathlib

/-!
Verification development for the `fmkr` library (`fmkr/fmkr.py`), a client
for the FileMaker Server XML publishing interface.

The definitions below are a shallow embedding of the Python source:

* Python `str` values are Lean `String`s (lists of Unicode scalar values).
* Python lists of pairs and dicts (with insertion order) are Lean
  `List (α × β)` association lists with `assocGet?` / `dictSet`.
* The client object `FM` is the state record `FMState`; its mutating
  methods become state-transforming functions.
* `FM._commit` becomes `FM.commit`, a pure function of the client state and
  an oracle `HTTPResponse` describing what the network returns; raised
  exceptions become `Except` errors (`CommitError.fm` for a raised
  `FMError`, `CommitError.py` for an uncaught Python exception).
-/

namespace Fmkr

/-! ## Python string primitives -/

/-- The set of characters stripped by Python `str.strip()`
(CPython `Py_UNICODE_ISSPACE`): 0x09-0x0D, 0x1C-0x1F, 0x20, 0x85, 0xA0,
0x1680, 0x2000-0x200A, 0x2028, 0x2029, 0x202F, 0x205F, 0x3000. -/
def isPySpace (c : Char) : Bool :=
  c.toNat ∈ [9, 10, 11, 12, 13, 28, 29, 30, 31, 32, 133, 160, 5760,
    8192, 8193, 8194, 8195, 8196, 8197, 8198, 8199, 8200, 8201, 8202,
    8232, 8233, 8239, 8287, 12288]

/-- Python `str.strip()` on a character list: drop `isPySpace` characters
from both ends. -/
def pyStripL (l : List Char) : List Char :=
  ((l.dropWhile isPySpace).reverse.dropWhile isPySpace).reverse

/-- Python `str.strip()`. -/
def pyStrip (s : String) : String :=
  ⟨pyStripL s.data⟩

/-- Value of an ASCII decimal digit character. -/
def digitVal (c : Char) : Option Nat :=
  if 48 ≤ c.toNat ∧ c.toNat ≤ 57 then some (c.toNat - 48) else none

/-- Digit tail of a Python integer literal: `('_'? digit)*` with every
underscore followed by a digit (Python 3.6 underscore rule). -/
def pyDigitsAux : List Char → Nat → Option Nat
  | [], acc => some acc
  | c :: rest, acc =>
    if c.toNat = 95 then
      match rest with
      | d :: rest2 =>
        match digitVal d with
        | some v => pyDigitsAux rest2 (acc * 10 + v)
        | none => none
      | [] => none
    else
      match digitVal c with
      | some v => pyDigitsAux rest (acc * 10 + v)
      | none => none

/-- Unsigned decimal integer: at least one digit, underscores allowed
between digits. -/
def pyUnsigned : List Char → Option Nat
  | [] => none
  | c :: rest =>
    match digitVal c with
    | some v => pyDigitsAux rest v
    | none => none

/-- Signed decimal integer body (after whitespace stripping). -/
def pyIntCore : List Char → Option Int
  | [] => none
  | c :: rest =>
    if c.toNat = 43 then (pyUnsigned rest).map Int.ofNat
    else if c.toNat = 45 then (pyUnsigned rest).map (fun n => -(n : Int))
    else (pyUnsigned (c :: rest)).map Int.ofNat

/-- Python `int(s)` on a decimal string: surrounding whitespace allowed,
optional sign, decimal digits; `none` models a raised `ValueError`. -/
def pyInt (s : String) : Option Int :=
  pyIntCore (pyStrip s).data

/-- Python dict / `lxml` attribute lookup on an insertion-ordered
association list (first binding of the key wins). -/
def assocGet? {κ α : Type} [DecidableEq κ] : List (κ × α) → κ → Option α
  | [], _ => none
  | (k', v') :: rest, k => if k' = k then some v' else assocGet? rest k

/-- Python `d[k] = v` on an insertion-ordered association list: overwrite
in place if the key is present, else append. -/
def dictSet {κ α : Type} [DecidableEq κ] : List (κ × α) → κ → α → List (κ × α)
  | [], k, v => [(k, v)]
  | (k', v') :: rest, k, v =>
    if k' = k then (k, v) :: rest else (k', v') :: dictSet rest k v

/-! ## The escape pipeline (`escape_unicode`)

The Python source is:

```
def escape_unicode(ustr, quote=True):
    return escape(ustr.strip(), quote=quote).encode(
        'ascii', 'xmlcharrefreplace').replace(b"'", b'&#39;').decode('ascii')
```

`html.escape` is a chain of single-pattern `str.replace` calls
(`&`→`&amp;` first, then `<`→`&lt;`, `>`→`&gt;` and, when `quote` is true,
`"`→`&quot;` and `'`→`&#x27;`).  Because none of the replacement texts
contains a character replaced by a later step (only `&`, which is replaced
first), the chain acts independently on each character of the input, so it
is embedded as a per-character map.  `encode('ascii', 'xmlcharrefreplace')`
keeps code points ≤ 127 and renders the rest as `&#`, the decimal code
point, `;`.  The final `replace` of the single byte `0x27` is likewise a
per-character map. -/

/-- One character of CPython `html.escape`. -/
def escapeCharL (quote : Bool) (c : Char) : List Char :=
  if c.toNat = 38 then "&amp;".data
  else if c.toNat = 60 then "&lt;".data
  else if c.toNat = 62 then "&gt;".data
  else if quote ∧ c.toNat = 34 then "&quot;".data
  else if quote ∧ c.toNat = 39 then "&#x27;".data
  else [c]

/-- Decimal digit character `chr(48 + d)` for `d < 10`. -/
def digitChar (d : Nat) : Char :=
  if d = 0 then '0' else if d = 1 then '1' else if d = 2 then '2'
  else if d = 3 then '3' else if d = 4 then '4' else if d = 5 then '5'
  else if d = 6 then '6' else if d = 7 then '7' else if d = 8 then '8'
  else '9'

/-- Decimal digits of `n`, most significant first (fuelled so that the
definition is structural and evaluates in the kernel). -/
def natDecimalAux : Nat → Nat → List Char → List Char
  | 0, _, acc => acc
  | fuel + 1, n, acc =>
    if n < 10 then digitChar n :: acc
    else natDecimalAux fuel (n / 10) (digitChar (n % 10) :: acc)

/-- Decimal representation of `n`, as produced by Python `str(n)` for a
natural number. -/
def natDecimal (n : Nat) : List Char :=
  natDecimalAux (n + 1) n []

/-- One character of `encode('ascii', 'xmlcharrefreplace')`: code points
above 127 become a decimal numeric character reference. -/
def xmlRefL (c : Char) : List Char :=
  if c.toNat ≤ 127 then [c]
  else '&' :: '#' :: (natDecimal c.toNat ++ [';'])

/-- One character of `.replace(b"'", b'&#39;')` (a single-byte pattern, so
a per-character map on the ASCII string). -/
def aposL (c : Char) : List Char :=
  if c.toNat = 39 then "&#39;".data else [c]

/-- `fmkr.escape_unicode`: strip, HTML-escape, encode non-ASCII characters
as numeric character references, replace literal apostrophes. -/
def escape_unicode (ustr : String) (quote : Bool) : String :=
  ⟨(((pyStrip ustr).data.flatMap (escapeCharL quote)).flatMap xmlRefL).flatMap aposL⟩

/-! ## `urllib.parse.urlencode` with `quote_via=quote_plus` -/

/-- Characters never quoted by `urllib.parse.quote` (`always_safe` with an
empty extra-safe set, as used by `urlencode`): ASCII letters, digits and
`_.-~`. -/
def isAlwaysSafe (c : Char) : Bool :=
  (65 ≤ c.toNat ∧ c.toNat ≤ 90) ∨ (97 ≤ c.toNat ∧ c.toNat ≤ 122) ∨
    (48 ≤ c.toNat ∧ c.toNat ≤ 57) ∨ c.toNat = 95 ∨ c.toNat = 46 ∨
    c.toNat = 45 ∨ c.toNat = 126

/-- Uppercase hexadecimal digit character for `d < 16`. -/
def hexUpper (d : Nat) : Char :=
  if d < 10 then digitChar d
  else if d = 10 then 'A' else if d = 11 then 'B' else if d = 12 then 'C'
  else if d = 13 then 'D' else if d = 14 then 'E' else 'F'

/-- UTF-8 bytes of one Unicode scalar value. -/
def utf8Bytes (c : Char) : List Nat :=
  let n := c.toNat
  if n < 0x80 then [n]
  else if n < 0x800 then [0xC0 + n / 0x40, 0x80 + n % 0x40]
  else if n < 0x10000 then
    [0xE0 + n / 0x1000, 0x80 + n / 0x40 % 0x40, 0x80 + n % 0x40]
  else
    [0xF0 + n / 0x40000, 0x80 + n / 0x1000 % 0x40, 0x80 + n / 0x40 % 0x40,
      0x80 + n % 0x40]

/-- Percent-encoding `%XY` of one byte, uppercase hex as in CPython. -/
def pctEncodeByte (b : Nat) : List Char :=
  ['%', hexUpper (b / 16), hexUpper (b % 16)]

/-- One character of `urllib.parse.quote_plus` with `safe=''`: safe
characters pass, space becomes `+`, everything else is percent-encoded
byte by byte (UTF-8). -/
def quotePlusChar (c : Char) : List Char :=
  if isAlwaysSafe c then [c]
  else if c.toNat = 32 then ['+']
  else (utf8Bytes c).flatMap pctEncodeByte

/-- `urllib.parse.quote_plus` with `safe=''` (the `urlencode` default). -/
def quote_plus (s : String) : String :=
  ⟨s.data.flatMap quotePlusChar⟩

/-- Python `'&'.join`. -/
def joinAmp : List String → String
  | [] => ""
  | [a] => a
  | a :: b :: rest => a ++ "&" ++ joinAmp (b :: rest)

/-- `urllib.parse.urlencode` on a list of string pairs: each pair becomes
`quote_plus(k) = quote_plus(v)` and the pairs are joined with `&`. -/
def urlencodePairs (l : List (String × String)) : String :=
  joinAmp (l.map fun kv => quote_plus kv.1 ++ "=" ++ quote_plus kv.2)

/-! ## Form-data decoding (server side)

Modelled from the spec: the spec's round-trip property decodes "the
produced form data" back into key/value pairs.  The decoder is not part of
this repository (it lives on the FileMaker server), so it is modelled from
the spec's words as the standard `application/x-www-form-urlencoded`
decode: split on `&`, split each segment on the first `=`, and
`unquote_plus` each side (`+` to space, `%XY` hex escapes to bytes,
maximal byte runs decoded as UTF-8). -/

/-- Value of a hexadecimal digit character, either case. -/
def hexVal (c : Char) : Option Nat :=
  if 48 ≤ c.toNat ∧ c.toNat ≤ 57 then some (c.toNat - 48)
  else if 65 ≤ c.toNat ∧ c.toNat ≤ 70 then some (c.toNat - 55)
  else if 97 ≤ c.toNat ∧ c.toNat ≤ 102 then some (c.toNat - 87)
  else none

/-- Modelled from the spec: `+` to space, the first step of
`unquote_plus`. -/
def plusToSpace (c : Char) : Char :=
  if c.toNat = 43 then ' ' else c

/-- A token of the percent-decoding scan: a literal character or one
decoded escape byte. -/
inductive QTok : Type
  | ch (c : Char)
  | byte (b : Nat)
deriving DecidableEq

/-- Modelled from the spec: scan a string into literal characters and
`%XY` escape bytes (a `%` not followed by two hex digits is literal). -/
def unquoteTokens : List Char → List QTok
  | [] => []
  | c :: rest =>
    if c.toNat = 37 then
      match rest with
      | h :: l :: rest2 =>
        match hexVal h, hexVal l with
        | some x, some y => .byte (16 * x + y) :: unquoteTokens rest2
        | _, _ => .ch c :: unquoteTokens (h :: l :: rest2)
      | [h] => [.ch c, .ch h]
      | [] => [.ch c]
    else .ch c :: unquoteTokens rest

/-- Whether a byte is a UTF-8 continuation byte. -/
def isCont (b : Nat) : Bool :=
  0x80 ≤ b ∧ b < 0xC0

/-- Value carried by a UTF-8 continuation byte, if it is one. -/
def contVal : Option Nat → Option Nat
  | some b => if isCont b then some (b - 0x80) else none
  | none => none

/-- Character decoded from a two-byte lead and its continuation. -/
def utf8Cont1 (b : Nat) (ob1 : Option Nat) : Char :=
  match contVal ob1 with
  | some v1 => Char.ofNat ((b - 0xC0) * 0x40 + v1)
  | none => Char.ofNat 0xFFFD

/-- Character decoded from a three-byte lead and its continuations. -/
def utf8Cont2 (b : Nat) (ob1 ob2 : Option Nat) : Char :=
  match contVal ob1, contVal ob2 with
  | some v1, some v2 => Char.ofNat ((b - 0xE0) * 0x1000 + v1 * 0x40 + v2)
  | _, _ => Char.ofNat 0xFFFD

/-- Character decoded from a four-byte lead and its continuations. -/
def utf8Cont3 (b : Nat) (ob1 ob2 ob3 : Option Nat) : Char :=
  match contVal ob1, contVal ob2, contVal ob3 with
  | some v1, some v2, some v3 =>
    Char.ofNat ((b - 0xF0) * 0x40000 + v1 * 0x1000 + v2 * 0x40 + v3)
  | _, _, _ => Char.ofNat 0xFFFD

/-- Modelled from the spec: UTF-8 decoding of a byte run, with U+FFFD for
byte sequences that are not well formed (the decoder is only ever applied
to well-formed output of `utf8Bytes` in this development, so the malformed
cases are never exercised by the theorems below). -/
def utf8DecodeList : List Nat → List Char
  | [] => []
  | b :: rest =>
    if b < 0x80 then Char.ofNat b :: utf8DecodeList rest
    else if b < 0xC0 then Char.ofNat 0xFFFD :: utf8DecodeList rest
    else if b < 0xE0 then utf8Cont1 b rest.head? :: utf8DecodeList rest.tail
    else if b < 0xF0 then
      utf8Cont2 b rest.head? rest.tail.head? :: utf8DecodeList rest.tail.tail
    else
      utf8Cont3 b rest.head? rest.tail.head? rest.tail.tail.head? ::
        utf8DecodeList rest.tail.tail.tail
termination_by l => l.length
decreasing_by
  all_goals simp
  all_goals cases rest
  all_goals simp [List.tail]
  all_goals omega

/-- Modelled from the spec: flush-on-literal collapse of the token stream;
maximal runs of escape bytes are decoded as UTF-8, literal characters pass
through. -/
def collapseTokens : List Nat → List QTok → List Char
  | pend, [] => utf8DecodeList pend
  | pend, .ch c :: rest => utf8DecodeList pend ++ c :: collapseTokens [] rest
  | pend, .byte b :: rest => collapseTokens (pend ++ [b]) rest

/-- Modelled from the spec: `urllib.parse.unquote_plus`. -/
def unquote_plus (s : String) : String :=
  ⟨collapseTokens [] (unquoteTokens (s.data.map plusToSpace))⟩

/-- Modelled from the spec: split a character list on a separator
character (Python `str.split(sep)`). -/
def splitOnChar (sep : Char) : List Char → List (List Char)
  | [] => [[]]
  | c :: rest =>
    match splitOnChar sep rest with
    | [] => [[]]
    | g :: gs => if c = sep then [] :: g :: gs else (c :: g) :: gs

/-- Modelled from the spec: split on the first occurrence of a separator
(Python `str.split(sep, 1)`; no separator leaves the remainder empty). -/
def splitFirst (sep : Char) : List Char → List Char × List Char
  | [] => ([], [])
  | c :: rest =>
    if c = sep then ([], rest)
    else
      let p := splitFirst sep rest
      (c :: p.1, p.2)

/-- Modelled from the spec: decode `application/x-www-form-urlencoded`
form data into an ordered list of key/value pairs. -/
def formDecode (s : String) : List (String × String) :=
  (splitOnChar '&' s.data).map fun seg =>
    let kv := splitFirst '=' seg
    (unquote_plus ⟨kv.1⟩, unquote_plus ⟨kv.2⟩)


/-! ## Data model -/

/-- Uncaught Python exceptions that the parsing code can raise. -/
inductive PyErr : Type
  | indexError
  | keyError (k : String)
  | valueError (s : String)
  | xmlError (msg : String)
deriving DecidableEq

/-- Python type objects appearing as values of `FMField.DTYPES`: every
FileMaker type tag is mapped to `str`. -/
inductive PyType : Type
  | str
deriving DecidableEq

/-- An lxml element: attribute map, text content, ordered children. -/
inductive XElem : Type
  | mk (attrib : List (String × String)) (text : Option String) (children : List XElem)

/-- Attribute map of an element. -/
def XElem.attrib : XElem → List (String × String)
  | .mk a _ _ => a

/-- Text content of an element (`None` when absent). -/
def XElem.text : XElem → Option String
  | .mk _ t _ => t

/-- Ordered children of an element. -/
def XElem.children : XElem → List XElem
  | .mk _ _ c => c

/-- Field metadata (`FMField`). -/
structure FMField where
  name : String
  maxrepeat : Int
  emptyok : Bool
  dtype : PyType
deriving DecidableEq

/-- The `FMField.DTYPES` map from FileMaker type tags to Python types. -/
def FMField.DTYPES : List (String × PyType) := [
  ("NUMBER", .str), ("TEXT", .str), ("DATE", .str), ("TIME", .str),
  ("TIMESTAMP", .str), ("CONTAINER", .str), ("CALCULATION", .str),
  ("SUMMARY", .str)]

/-- Python `d[k]` on an attribute map: `KeyError` when absent. -/
def dictGetE (d : List (String × String)) (k : String) : Except PyErr String :=
  match assocGet? d k with
  | some v => .ok v
  | none => .error (.keyError k)

/-- Python `int(s)`: `ValueError` when the string is not an integer. -/
def pyIntE (s : String) : Except PyErr Int :=
  match pyInt s with
  | some n => .ok n
  | none => .error (.valueError s)

/-- `FMField.__init__`: read NAME, MAXREPEAT (as int) and EMPTYOK from the
attribute map (`KeyError` / `ValueError` propagate); the TYPE tag is
looked up in DTYPES inside a `try` whose `KeyError` handler defaults the
type to `str`. -/
def FMField.init (attributes : List (String × String)) : Except PyErr FMField := do
  let name ← dictGetE attributes "NAME"
  let mrS ← dictGetE attributes "MAXREPEAT"
  let maxrepeat ← pyIntE mrS
  let eok ← dictGetE attributes "EMPTYOK"
  let dtype := match assocGet? attributes "TYPE" with
    | some t => (assocGet? FMField.DTYPES t).getD .str
    | none => .str
  pure ⟨name, maxrepeat, eok == "YES", dtype⟩

/-- The fixed FileMaker code-to-message table `FMError.CODES`. -/
def FMError.CODES : List (Int × String) := [
  (-1, "Unknown error"),
  (0, "No error"),
  (1, "User canceled action"),
  (2, "Memory error"),
  (3, "Command is unavailable (for example, wrong operating system, wrong mode, etc.)"),
  (4, "Command is unknown"),
  (5, "Command is invalid (for example, a Set Field script step does not have a calculation specified)"),
  (6, "File is read-only"),
  (7, "Running out of memory"),
  (8, "Empty result"),
  (9, "Insufficient privileges"),
  (10, "Requested data is missing"),
  (11, "Name is not valid"),
  (12, "Name already exists"),
  (13, "File or object is in use"),
  (14, "Out of range"),
  (15, "Can\x27t divide by zero"),
  (16, "Operation failed, request retry (for example, a user query)"),
  (17, "Attempt to convert foreign character set to UTF-16 failed"),
  (18, "Client must provide account information to proceed"),
  (19, "String contains characters other than A-Z, a-z, 0-9 (ASCII)"),
  (100, "File is missing"),
  (101, "Record is missing"),
  (102, "Field is missing"),
  (103, "Relationship is missing"),
  (104, "Script is missing"),
  (105, "Layout is missing"),
  (106, "Table is missing"),
  (107, "Index is missing"),
  (108, "Value list is missing"),
  (109, "Privilege set is missing"),
  (110, "Related tables are missing"),
  (111, "Field repetition is invalid"),
  (112, "Window is missing"),
  (113, "Function is missing"),
  (114, "File reference is missing"),
  (130, "Files are damaged or missing and must be reinstalled"),
  (131, "Language pack files are missing (such as template files)"),
  (200, "Record access is denied"),
  (201, "Field cannot be modified"),
  (202, "Field access is denied"),
  (203, "No records in file to print, or password doesn\x27t allow print access"),
  (204, "No access to field(s) in sort order"),
  (205, "User does not have access privileges to create new records; import will overwrite existing data"),
  (206, "User does not have password change privileges, or file is not modifiable"),
  (207, "User does not have sufficient privileges to change database schema, or file is not modifiable"),
  (208, "Password does not contain enough characters"),
  (209, "New password must be different from existing one"),
  (210, "User account is inactive"),
  (211, "Password has expired"),
  (212, "Invalid user account and/or password. Please try again"),
  (213, "User account and/or password does not exist"),
  (214, "Too many login attempts"),
  (215, "Administrator privileges cannot be duplicated"),
  (216, "Guest account cannot be duplicated"),
  (217, "User does not have sufficient privileges to modify administrator account"),
  (300, "File is locked or in use"),
  (301, "Record is in use by another user"),
  (302, "Table is in use by another user"),
  (303, "Database schema is in use by another user"),
  (304, "Layout is in use by another user"),
  (306, "Record modification ID does not match"),
  (400, "Find criteria are empty"),
  (401, "No records match the request"),
  (402, "Selected field is not a match field for a lookup"),
  (403, "Exceeding maximum record limit for trial version of FileMaker(tm)) Pro"),
  (404, "Sort order is invalid"),
  (405, "Number of records specified exceeds number of records that can be omitted"),
  (406, "Replace/Reserialize criteria are invalid"),
  (407, "One or both match fields are missing (invalid relationship)"),
  (408, "Specified field has inappropriate data type for this operation"),
  (409, "Import order is invalid"),
  (410, "Export order is invalid"),
  (412, "Wrong version of FileMaker(tm) Pro used to recover file"),
  (413, "Specified field has inappropriate field type"),
  (414, "Layout cannot display the result"),
  (415, "Related Record Required"),
  (500, "Date value does not meet validation entry options"),
  (501, "Time value does not meet validation entry options"),
  (502, "Number value does not meet validation entry options"),
  (503, "Value in field is not within the range specified in validation entry options"),
  (504, "Value in field is not unique as required in validation entry options"),
  (505, "Value in field is not an existing value in the database file as required in validation entry options"),
  (506, "Value in field is not listed on the value list specified in validation entry option"),
  (507, "Value in field failed calculation test of validation entry option"),
  (508, "Invalid value entered in Find mode"),
  (509, "Field requires a valid value"),
  (510, "Related value is empty or unavailable"),
  (511, "Value in field exceeds maximum number of allowed characters"),
  (600, "Print error has occurred"),
  (601, "Combined header and footer exceed one page"),
  (602, "Body doesn\x27t fit on a page for current column setup"),
  (603, "Print connection lost"),
  (700, "File is of the wrong file type for import"),
  (706, "EPSF file has no preview image"),
  (707, "Graphic translator cannot be found"),
  (708, "Can\x27t import the file or need color monitor support to import file"),
  (709, "QuickTime movie import failed"),
  (710, "Unable to update QuickTime file reference because the database file is read-only"),
  (711, "Import translator cannot be found"),
  (714, "Password privileges do not allow the operation"),
  (715, "Specified Excel worksheet or named range is missing"),
  (716, "A SQL query using DELETE, INSERT, or UPDATE is not allowed for ODBC import"),
  (717, "There is not enough XML/XSL information to proceed with the import or export"),
  (718, "Error in parsing XML file (from Xerces)"),
  (719, "Error in transforming XML using XSL (from Xalan)"),
  (720, "Error when exporting; intended format does not support repeating fields"),
  (721, "Unknown error occurred in the parser or the transformer"),
  (722, "Cannot import data into a file that has no fields"),
  (723, "You do not have permission to add records to or modify records in the target table"),
  (724, "You do not have permission to add records to the target table"),
  (725, "You do not have permission to modify records in the target table"),
  (726, "There are more records in the import file than in the target table. Not all records were imported"),
  (727, "There are more records in the target table than in the import file. Not all records were updated"),
  (729, "Errors occurred during import. Records could not be imported"),
  (730, "Unsupported Excel version. (Convert file to Excel 7.0 (Excel 95), Excel 97, 2000, or XP format and try again)"),
  (731, "The file you are importing from contains no data"),
  (732, "This file cannot be inserted because it contains other files"),
  (733, "A table cannot be imported into itself"),
  (734, "This file type cannot be displayed as a picture"),
  (735, "This file type cannot be displayed as a picture. It will be inserted and displayed as a file 800 Unable to create file on disk"),
  (801, "Unable to create temporary file on System disk"),
  (802, "Unable to open file"),
  (803, "File is single user or host cannot be found"),
  (804, "File cannot be opened as read-only in its current state"),
  (805, "File is damaged; use Recover command"),
  (806, "File cannot be opened with this version of FileMaker(tm) Pro"),
  (807, "File is not a FileMaker(tm) Pro file or is severely damaged"),
  (808, "Cannot open file because access privileges are damaged"),
  (809, "Disk/volume is full"),
  (810, "Disk/volume is locked"),
  (811, "Temporary file cannot be opened as FileMaker(tm) Pro file"),
  (813, "Record Synchronization error on network"),
  (814, "File(s) cannot be opened because maximum number is open"),
  (815, "Couldn\x27t open lookup file"),
  (816, "Unable to convert file"),
  (817, "Unable to open file because it does not belong to this solution"),
  (819, "Cannot save a local copy of a remote file"),
  (820, "File is in the process of being closed"),
  (821, "Host forced a disconnect"),
  (822, "FMI files not found; reinstall missing files"),
  (823, "Cannot set file to single-user, guests are connected"),
  (824, "File is damaged or not a FileMaker(tm) file"),
  (900, "General spelling engine error"),
  (901, "Main spelling dictionary not installed"),
  (902, "Could not launch the Help system"),
  (903, "Command cannot be used in a shared file"),
  (904, "Command can only be used in a file hosted under FileMaker(tm) Server"),
  (905, "No active field selected; command can only be used if there is an active field"),
  (920, "Can\x27t initialize the spelling engine"),
  (921, "User dictionary cannot be loaded for editing"),
  (922, "User dictionary cannot be found"),
  (923, "User dictionary is read-only"),
  (951, "An unexpected error occurred (returned only by web-published databases)"),
  (954, "Unsupported XML grammar (returned only by web-published databases)"),
  (955, "No database name (returned only by web-published databases)"),
  (956, "Maximum number of database sessions exceeded (returned only by web-published databases)"),
  (957, "Conflicting commands (returned only by web-published databases)"),
  (958, "Parameter missing (returned only by web-published databases)"),
  (971, "The user name is invalid"),
  (972, "The password is invalid"),
  (973, "The database is invalid"),
  (974, "Permission Denied"),
  (975, "The field has restricted access"),
  (976, "Security is disabled"),
  (977, "Invalid client IP address"),
  (978, "The number of allowed guests has been exceeded"),
  (1200, "Generic calculation error"),
  (1201, "Too few parameters in the function"),
  (1202, "Too many parameters in the function"),
  (1203, "Unexpected end of calculation"),
  (1204, "Number, text constant, field name or \"(\" expected"),
  (1205, "Comment is not terminated with \"*/\""),
  (1206, "Text constant must end with a quotation mark"),
  (1207, "Unbalanced parenthesis"),
  (1208, "Operator missing, function not found or \"(\" not expected"),
  (1209, "Name (such as field name or layout name) is missing"),
  (1210, "Plug-in function has already been registered"),
  (1211, "List usage is not allowed in this function"),
  (1212, "An operator (for example, +, -, *) is expected here"),
  (1213, "This variable has already been defined in the Let function"),
  (1214, "AVERAGE, COUNT, EXTEND, GETREPETITION, MAX, MIN, NPV, STDEV, SUM and GETSUMMARY: expression found where a field alone is needed"),
  (1215, "This parameter is an invalid Get function parameter"),
  (1216, "Only Summary fields allowed as first argument in GETSUMMARY"),
  (1217, "Break field is invalid"),
  (1218, "Cannot evaluate the number"),
  (1219, "A field cannot be used in its own formula"),
  (1220, "Field type must be normal or calculated"),
  (1221, "Data type must be number, date, time, or timestamp"),
  (1222, "Calculation cannot be stored"),
  (1223, "The function referred to does not exist"),
  (1400, "ODBC driver initialization failed; make sure the ODBC drivers are properly installed"),
  (1401, "Failed to allocate environment (ODBC)"),
  (1402, "Failed to free environment (ODBC)"),
  (1403, "Failed to disconnect (ODBC)"),
  (1404, "Failed to allocate connection (ODBC)"),
  (1405, "Failed to free connection (ODBC)"),
  (1406, "Failed check for SQL API (ODBC)"),
  (1407, "Failed to allocate statement (ODBC)"),
  (1408, "Extended error (ODBC)"),
  (1413, "Failed communication link (ODBC)"),
  (1414, "SQL statement is too long"),
  (1450, "Action requires PHP privilege extension (*)"),
  (1451, "Action requires that current file be remote"),
  (1501, "SMTP authentication failed"),
  (1502, "Connection refused by SMTP server"),
  (1503, "Error with SSL"),
  (1504, "SMTP server requires the connection to be encrypted"),
  (1505, "Specified authentication is not supported by SMTP server"),
  (1506, "Email message(s) could not be sent successfully"),
  (1507, "Unable to log in to the SMTP server"),
  (1550, "Cannot load the plug-in, or the plug-in is not a valid plug-in"),
  (1551, "Cannot install the plug-in; cannot delete an existing plug-in or write to the folder or disk"),
  (1626, "Protocol is not supported"),
  (1627, "Authentication failed"),
  (1628, "There was an error with SSL"),
  (1629, "Connection timed out; the timeout value is 60 seconds"),
  (1630, "URL format is incorrect"),
  (1631, "Connection failed"),
  (1632, "Certificate cannot be authenticated by a supported certificate authority"),
  (1633, "Certificate is valid but still causes an error (for example, the certificate has expired)")]

/-- The `FMError` exception, reduced to its observable attributes. -/
structure FMErrorT where
  code : Int
  message : String
deriving DecidableEq

/-- `FMError(error)` with an integer code: the message is drawn from the
CODES table, with unknown codes mapped to "Unknown error code". -/
def FMError.ofCode (code : Int) : FMErrorT :=
  ⟨code, "FileMaker Error " ++ toString code ++ ": " ++
    ((assocGet? FMError.CODES code).getD "Unknown error code")⟩

/-- `FMError(error)` with a non-integer argument: the code is -1 and the
message is the argument itself. -/
def FMError.ofMsg (msg : String) : FMErrorT :=
  ⟨-1, msg⟩

/-- A decoded field value in a result record: Python `None`, a string, or
a list of strings for a repeating field. -/
inductive FMValue : Type
  | null
  | str (s : String)
  | list (l : List String)
deriving DecidableEq

/-- A value of the result-record dict: the integer MODID / RECORDID
entries or a decoded field value. -/
inductive PyRecVal : Type
  | int (n : Int)
  | val (v : FMValue)
deriving DecidableEq

/-- `FMPXMLResult`, the decoded query result. -/
structure FMPXMLResult where
  resultset : List (List (String × PyRecVal))
  metadata : List FMField
  product : List (String × String)
  database : List (String × String)
  url : String
  httpinfo : String
  errorcode : Int
deriving DecidableEq

/-! ## Client state and request builder -/

/-- The mutable state of an `FM` client object. -/
structure FMState where
  _server : String
  _port : Nat
  _protocol : String
  _escrslt : Bool
  _dbname : String
  _dbuser : String
  _dbpasswd : String
  _dbdata : List (String × String)
  _dbparams : List (String × String)
  _maxret : Nat
deriving DecidableEq

/-- `FM.__init__(server, port, protocol)` (Python defaults: port 80,
protocol "http"). -/
def FM.init (server : String) (port : Nat) (protocol : String) : FMState :=
  ⟨server, port, protocol, false, "", "", "", [], [], 50⟩

/-- `FM._dbparams_append`. -/
def FM.dbparamsAppend (st : FMState) (arg : String × String) : FMState :=
  { st with _dbparams := st._dbparams ++ [arg] }

/-- `FM._dbdata_append`. -/
def FM.dbdataAppend (st : FMState) (arg : String × String) : FMState :=
  { st with _dbdata := st._dbdata ++ [arg] }

/-- `FM.set_db_data(name, layout, maxret=50, response=None)`: reset the
database selection, append `-db` and `-lay`, append `-lay.response` only
when `response` is truthy, and set the max-records limit. -/
def FM.set_db_data (st : FMState) (name layout : String) (maxret : Nat)
    (response : Option String) : FMState :=
  let st1 := { st with _dbdata := [] }
  let st2 := FM.dbdataAppend st1 ("-db", name)
  let st3 := FM.dbdataAppend st2 ("-lay", layout)
  let st4 := match response with
    | some r => if r ≠ "" then FM.dbdataAppend st3 ("-lay.response", r) else st3
    | none => st3
  { st4 with _maxret := maxret }

/-- `FM.set_db_password`. -/
def FM.set_db_password (st : FMState) (username password : String) : FMState :=
  { st with _dbuser := username, _dbpasswd := password }

/-- `FM.set_script(name, option=None)`. -/
def FM.set_script (st : FMState) (name : String) (option : Option String) : FMState :=
  let key := if option = some "prefind" ∨ option = some "presort"
    then "-script." ++ option.getD "" else "-script"
  FM.dbparamsAppend st (key, name)

/-- `FM.set_record_id`. -/
def FM.set_record_id (st : FMState) (recid : String) : FMState :=
  FM.dbparamsAppend st ("-recid", recid)

/-- `FM.set_modifier_id`. -/
def FM.set_modifier_id (st : FMState) (modid : String) : FMState :=
  FM.dbparamsAppend st ("-modid", modid)

/-- `FM.set_logical_or`. -/
def FM.set_logical_or (st : FMState) : FMState :=
  FM.dbparamsAppend st ("-lop", "or")

/-- `FM.set_group_size`. -/
def FM.set_group_size (st : FMState) (maxret : Nat) : FMState :=
  { st with _maxret := maxret }

/-- `FM.set_skip_records`: append `-skip` only when nonzero. -/
def FM.set_skip_records (st : FMState) (skip : Int) : FMState :=
  if skip ≠ 0 then FM.dbparamsAppend st ("-skip", toString skip) else st

/-- `FM.set_escape(value=True)`. -/
def FM.set_escape (st : FMState) (value : Bool) : FMState :=
  { st with _escrslt := value }

/-- `FM.add_db_param(field, value, op=None)`: append the field/value pair
and, when `op` is truthy, an adjacent operator-qualifier pair. -/
def FM.add_db_param (st : FMState) (field value : String) (op : Option String) : FMState :=
  let st1 := FM.dbparamsAppend st (field, value)
  match op with
  | some o => if o ≠ "" then FM.dbparamsAppend st1 (field ++ ".op", o) else st1
  | none => st1

/-- `FM.add_db_params`. -/
def FM.add_db_params (st : FMState) (fieldvalues : List (String × String)) : FMState :=
  fieldvalues.foldl (fun s fv => FM.add_db_param s fv.1 fv.2 none) st

/-- `FM.add_sort_param(field, order=\'ascend\', priority=0)`. -/
def FM.add_sort_param (st : FMState) (field order : String) (priority : Int) : FMState :=
  let st1 := FM.dbparamsAppend st ("-sortfield." ++ toString priority, field)
  FM.dbparamsAppend st1 ("-sortorder." ++ toString priority, order)

/-! ## Transport and response parsing -/

/-- The five submit actions. -/
inductive FMAction : Type
  | find | findall | new | edit | delete
deriving DecidableEq

/-- The action directive string interpolated into `self._commit(...)`. -/
def FMAction.key : FMAction → String
  | .find => "find"
  | .findall => "findall"
  | .new => "new"
  | .edit => "edit"
  | .delete => "delete"

/-- What the network returns for the single POST issued by a submit: an
HTTP-level error (`HTTPError`), a connection-level error (`URLError`), a
response whose body is not parsable XML, or a parsed document. -/
inductive HTTPResponse : Type
  | httpError (msg : String)
  | urlError (reason : String)
  | malformedXml (msg : String)
  | ok (httpinfo : String) (root : XElem)

/-- How a submit fails: a raised `FMError`, or an uncaught Python
exception. -/
inductive CommitError : Type
  | fm (e : FMErrorT)
  | py (e : PyErr)
deriving DecidableEq

/-- Everything observable about one `FM._commit` call: the state the
client is left in, the form-encoded request body that was POSTed, and the
returned result or raised error. -/
structure CommitOutcome where
  state : FMState
  requestBody : String
  result : Except CommitError FMPXMLResult

/-- `int(root[0].text)` guarded by `try/except Exception`: a missing
element, missing text or an unparsable integer all yield the sentinel
code -1. -/
def decodeErrorcode (root : XElem) : Int :=
  match root.children.head? with
  | none => -1
  | some e =>
    match e.text with
    | none => -1
    | some t =>
      match pyInt t with
      | some n => n
      | none => -1

/-- Python `l[i]` on a child list: `IndexError` when out of range. -/
def listGetE (l : List XElem) (i : Nat) : Except PyErr XElem :=
  match l.get? i with
  | some e => .ok e
  | none => .error .indexError

/-- The per-value converter chosen in the result-set loop:
`escape_unicode` when escaping is enabled and the field type is `str`,
otherwise the type itself as a callable (`str` is the identity on
strings). -/
def convertType (escrslt : Bool) (md : FMField) : String → String :=
  if escrslt ∧ md.dtype = PyType.str then (escape_unicode · true) else id

/-- The repeating-field loop: walk the sub-elements in order, stop at the
first one with no text, convert each collected text. -/
def collectReps (conv : String → String) : List XElem → List String
  | [] => []
  | c :: rest =>
    match c.text with
    | none => []
    | some v => conv v :: collectReps conv rest

/-- Decode one record column against its field metadata: `cn[0].text`
(possibly `None`) for a scalar field, the collected repetition list
otherwise. -/
def decodeCol (escrslt : Bool) (md : FMField) (cn : XElem) : Except PyErr FMValue :=
  if md.maxrepeat = 1 then
    match cn.children.head? with
    | none => .error .indexError
    | some c0 =>
      match c0.text with
      | none => .ok .null
      | some v => .ok (.str (convertType escrslt md v))
  else .ok (.list (collectReps (convertType escrslt md) cn.children))

/-- Decode one `ROW`: the MODID and RECORDID attributes as integers, then
each child cell matched positionally (`zip`) against the metadata. -/
def decodeRow (escrslt : Bool) (metadata : List FMField) (row : XElem) :
    Except PyErr (List (String × PyRecVal)) := do
  let modidS ← dictGetE row.attrib "MODID"
  let modid ← pyIntE modidS
  let recidS ← dictGetE row.attrib "RECORDID"
  let recid ← pyIntE recidS
  let base := [("MODID", PyRecVal.int modid), ("RECORDID", PyRecVal.int recid)]
  (metadata.zip row.children).foldlM (fun d mc => do
      let v ← decodeCol escrslt mc.1 mc.2
      pure (dictSet d mc.1.name (PyRecVal.val v))) base

/-- The success-path body of `FM._commit` after the status check: product
and database attributes, field metadata, result set, in source order. -/
def parseBody (escrslt : Bool) (url data httpinfo : String) (root : XElem) :
    Except PyErr FMPXMLResult := do
  let productElem ← listGetE root.children 1
  let databaseElem ← listGetE root.children 2
  let metadataElem ← listGetE root.children 3
  let metadata ← metadataElem.children.mapM fun f => FMField.init f.attrib
  let resultsetElem ← listGetE root.children 4
  let resultset ← resultsetElem.children.mapM fun row => decodeRow escrslt metadata row
  pure ⟨resultset, metadata, productElem.attrib, databaseElem.attrib,
    url ++ "?" ++ data, httpinfo, 0⟩

/-- Response handling of `FM._commit`: transport failures raise an
`FMError` built from the underlying message, a nonzero (or undecodable)
status raises an `FMError` from the code, and otherwise the document is
decoded. -/
def FM.parseResponse (escrslt : Bool) (url data : String) (resp : HTTPResponse) :
    Except CommitError FMPXMLResult :=
  match resp with
  | .httpError msg => .error (.fm (FMError.ofMsg msg))
  | .urlError reason => .error (.fm (FMError.ofMsg ("URL Error: " ++ reason)))
  | .malformedXml msg => .error (.py (.xmlError msg))
  | .ok httpinfo root =>
    let errorcode := decodeErrorcode root
    if errorcode ≠ 0 then .error (.fm (FMError.ofCode errorcode))
    else (parseBody escrslt url data httpinfo root).mapError CommitError.py

/-- The request URL `FM.URL.format(**self.__dict__)`. -/
def FM.url (st : FMState) : String :=
  st._protocol ++ "://" ++ st._server ++ ":" ++ toString st._port ++
    "/fmi/xml/FMPXMLRESULT.xml"

/-- `FM._commit(action)`: append the `-max` pair to the pending
parameters, build the URL and the form body with the trailing action flag,
clear the pending parameters (before the network call), then submit and
decode the response. -/
def FM.commit (st : FMState) (action : FMAction) (resp : HTTPResponse) : CommitOutcome :=
  let st1 := FM.dbparamsAppend st ("-max", toString st._maxret)
  let url := FM.url st1
  let data := urlencodePairs (st1._dbdata ++ st1._dbparams) ++ "&-" ++ action.key
  { state := { st1 with _dbparams := [] },
    requestBody := data,
    result := FM.parseResponse st1._escrslt url data resp }

/-- `FM.fm_find`. -/
def FM.fm_find (st : FMState) (resp : HTTPResponse) : CommitOutcome :=
  FM.commit st .find resp

/-- `FM.fm_find_all`. -/
def FM.fm_find_all (st : FMState) (resp : HTTPResponse) : CommitOutcome :=
  FM.commit st .findall resp

/-- `FM.fm_edit`. -/
def FM.fm_edit (st : FMState) (resp : HTTPResponse) : CommitOutcome :=
  FM.commit st .edit resp

/-- `FM.fm_new`. -/
def FM.fm_new (st : FMState) (resp : HTTPResponse) : CommitOutcome :=
  FM.commit st .new resp

/-- `FM.fm_delete`. -/
def FM.fm_delete (st : FMState) (resp : HTTPResponse) : CommitOutcome :=
  FM.commit st .delete resp


/-- The token stream that one input character of `quote_plus` decodes back
to: safe characters and the space (encoded `+`, decoded back to a space)
stay literal, everything else is a run of escape bytes. -/
def quoteTok (c : Char) : List QTok :=
  if isAlwaysSafe c ∨ c.toNat = 32 then [QTok.ch c]
  else (utf8Bytes c).map QTok.byte

/-- The composite per-character map of the escape pipeline (HTML escape,
then numeric character references, then the apostrophe replace). -/
def escPipe (quote : Bool) (c : Char) : List Char :=
  ((escapeCharL quote c).flatMap xmlRefL).flatMap aposL

/-! ## Concrete fixtures used by the witness theorems -/

/-- A concrete client state. -/
def stEx : FMState := FM.init "filemaker.domain.com" 80 "http"

/-- A response document whose status element holds "401". -/
def root401 : XElem := .mk [] none [.mk [] (some "401") []]

/-- A response document whose status element holds a non-integer. -/
def rootBadStatus : XElem := .mk [] none [.mk [] (some "not an int") []]

/-- Metadata for a field with repetition count 3. -/
def md3 : FMField := ⟨"F", 3, true, .str⟩

/-- Metadata for a scalar text field. -/
def mdText : FMField := ⟨"F", 1, true, .str⟩

/-- A repeating-field cell with three sub-children, of which only the
first two carry text. -/
def cell3 : XElem :=
  .mk [] none [.mk [] (some "a") [], .mk [] (some "b") [], .mk [] none []]

/-- A scalar cell whose text holds `<`, `&`, an apostrophe and a
non-ASCII character. -/
def cellEsc : XElem := .mk [] none [.mk [] (some "<&\x27é") []]

/-- Field-metadata attributes with an unrecognized TYPE tag. -/
def attrsBlob : List (String × String) :=
  [("EMPTYOK", "YES"), ("MAXREPEAT", "2"), ("NAME", "N"), ("TYPE", "BLOB")]

/-! ## Theorems -/


/-- C1: for every client state and every transport outcome, each of the
five submit methods (`fm_find`, `fm_find_all`, `fm_new`, `fm_edit`,
`fm_delete`) leaves the Pending Parameters list `_dbparams` empty: the
clear happens before the network call, so the state is the same whether
the call returns a result, raises on transport failure, or raises on a
nonzero status code. -/
theorem submit_clears_dbparams (st : FMState) (resp : HTTPResponse) :
    (FM.fm_find st resp).state._dbparams = [] ∧
    (FM.fm_find_all st resp).state._dbparams = [] ∧
    (FM.fm_new st resp).state._dbparams = [] ∧
    (FM.fm_edit st resp).state._dbparams = [] ∧
    (FM.fm_delete st resp).state._dbparams = [] :=
  ⟨rfl, rfl, rfl, rfl, rfl⟩

/-- C6: `set_db_data` replaces the Database Selection with the new `-db`,
`-lay` and (when truthy) `-lay.response` pairs, sets the max-records
limit, and leaves the Pending Parameters list — and every other state
component — unchanged. -/
theorem set_db_data_spec (st : FMState) (name layout : String) (maxret : Nat)
    (response : Option String) :
    (FM.set_db_data st name layout maxret response)._dbdata =
      [("-db", name), ("-lay", layout)] ++
        (match response with
          | some r => if r ≠ "" then [("-lay.response", r)] else []
          | none => []) ∧
    (FM.set_db_data st name layout maxret response)._maxret = maxret ∧
    (FM.set_db_data st name layout maxret response)._dbparams = st._dbparams ∧
    (FM.set_db_data st name layout maxret response)._escrslt = st._escrslt ∧
    (FM.set_db_data st name layout maxret response)._dbuser = st._dbuser ∧
    (FM.set_db_data st name layout maxret response)._dbpasswd = st._dbpasswd := by
  cases response with
  | none => simp [FM.set_db_data, FM.dbdataAppend]
  | some r =>
    by_cases h : r = ""
    · simp [FM.set_db_data, FM.dbdataAppend, h]
    · simp [FM.set_db_data, FM.dbdataAppend, h]

/-- C8: on every submit, the `-max` page-size pair is appended after the
Pending Parameters, and the POSTed body is the form encoding of the
Database Selection pairs followed by the Pending Parameters pairs, with
the action directive appended as a trailing `&-action` flag. -/
theorem commit_request_body (st : FMState) (a : FMAction) (resp : HTTPResponse) :
    (FM.commit st a resp).requestBody =
      urlencodePairs (st._dbdata ++ st._dbparams ++ [("-max", toString st._maxret)]) ++
        "&-" ++ a.key ∧
    ∃ p, (FM.commit st a resp).requestBody = p ++ ("&-" ++ a.key) := by
  constructor
  · simp [FM.commit, FM.dbparamsAppend, List.append_assoc]
  · exact ⟨urlencodePairs (st._dbdata ++ (st._dbparams ++ [("-max", toString st._maxret)])),
      by simp [FM.commit, FM.dbparamsAppend, String.append_assoc]⟩


/-- Looking up the key just set returns the new value. -/
theorem assocGet_dictSet_self {κ α : Type} [DecidableEq κ] (d : List (κ × α)) (k : κ) (v : α) :
    assocGet? (dictSet d k v) k = some v := by
  induction d with
  | nil => simp [dictSet, assocGet?]
  | cons p rest ih =>
    by_cases h : p.1 = k
    · simp [dictSet, assocGet?, h]
    · simp [dictSet, assocGet?, h, ih]

/-- Setting one key leaves lookups of other keys unchanged. -/
theorem assocGet_dictSet_ne {κ α : Type} [DecidableEq κ] (d : List (κ × α)) (k k' : κ) (v : α)
    (h : k' ≠ k) : assocGet? (dictSet d k v) k' = assocGet? d k' := by
  induction d with
  | nil =>
    simp only [dictSet, assocGet?]
    rw [if_neg (fun hk => h hk.symm)]
  | cons p rest ih =>
    by_cases hp : p.1 = k
    · subst hp
      simp [dictSet, assocGet?, Ne.symm h]
    · simp [dictSet, assocGet?, hp, ih]

/-- C2: whenever the decoded status code is nonzero, the submit fails with
the `FMError` built from that code and no result object is returned; the
`FMError` message is drawn from the fixed CODES table with unrecognized
codes mapped to "Unknown error code", and for code 401 the message is
exactly "FileMaker Error 401: No records match the request". -/
theorem commit_nonzero_status (st : FMState) (a : FMAction) (hi : String) (root : XElem)
    (h : decodeErrorcode root ≠ 0) :
    (FM.commit st a (.ok hi root)).result =
      .error (.fm (FMError.ofCode (decodeErrorcode root))) ∧
    (∀ n : Int, (FMError.ofCode n).code = n ∧
      (FMError.ofCode n).message = "FileMaker Error " ++ toString n ++ ": " ++
        ((assocGet? FMError.CODES n).getD "Unknown error code")) ∧
    (FMError.ofCode 401).message = "FileMaker Error 401: No records match the request" := by
  refine ⟨?_, fun n => ⟨rfl, rfl⟩, by decide⟩
  simp [FM.commit, FM.parseResponse, h]

/-- Witness for C2 at a concrete 401 response. -/
theorem commit_nonzero_status_witness :
    (FM.commit stEx .find (.ok "" root401)).result = .error (.fm (FMError.ofCode 401)) ∧
    (FMError.ofCode 401).message = "FileMaker Error 401: No records match the request" := by
  have h := commit_nonzero_status stEx .find "" root401 (by decide)
  have e : decodeErrorcode root401 = 401 := by decide
  have h1 := h.1
  rw [e] at h1
  exact ⟨h1, h.2.2⟩

/-- C5: when the status element is absent, has no text, or holds a
non-integer, the parser yields the sentinel code -1 ("Unknown error")
rather than failing outright, and the submit raises the corresponding
protocol error. -/
theorem status_non_integer_sentinel (root : XElem) (st : FMState) (a : FMAction) (hi : String)
    (h : ∀ e t, root.children.head? = some e → e.text = some t → pyInt t = none) :
    decodeErrorcode root = -1 ∧
    (FM.commit st a (.ok hi root)).result = .error (.fm (FMError.ofCode (-1))) ∧
    (FMError.ofCode (-1)).message = "FileMaker Error -1: Unknown error" := by
  have h1 : decodeErrorcode root = -1 := by
    cases hc : root.children.head? with
    | none => simp [decodeErrorcode, hc]
    | some e =>
      cases ht : e.text with
      | none => simp [decodeErrorcode, hc, ht]
      | some t => simp [decodeErrorcode, hc, ht, h e t hc ht]
  refine ⟨h1, ?_, by decide⟩
  simp [FM.commit, FM.parseResponse, h1]

/-- Witness for C5 at a concrete response with a non-integer status. -/
theorem status_non_integer_sentinel_witness :
    decodeErrorcode rootBadStatus = -1 ∧
    (FM.commit stEx .find (.ok "" rootBadStatus)).result =
      .error (.fm (FMError.ofCode (-1))) := by
  have h := status_non_integer_sentinel rootBadStatus stEx .find ""
    (by
      intro e t he ht
      simp [rootBadStatus, XElem.children] at he
      subst he
      simp [XElem.text] at ht
      subst ht
      decide)
  exact ⟨h.1, h.2.1⟩

/-- The repetition loop equals taking the longest prefix of sub-elements
that carry text and converting those texts. -/
theorem collectReps_eq_takeWhile (conv : String → String) (l : List XElem) :
    collectReps conv l =
      ((l.map XElem.text).takeWhile Option.isSome).filterMap (fun t => t.map conv) := by
  induction l with
  | nil => simp [collectReps]
  | cons c rest ih =>
    cases ht : c.text with
    | none => simp [collectReps, ht]
    | some v => simp [collectReps, ht, ih]

/-- C3: for a field whose repetition count is greater than 1, the decoded
value is the ordered sequence of sub-element texts collected until the
first sub-element with no text; with repetition count 3 and only the first
two sub-children carrying text, the decoded value has exactly the two
texts. -/
theorem repeating_decode (escr : Bool) (md : FMField) (cn : XElem)
    (h : 1 < md.maxrepeat) :
    decodeCol escr md cn = .ok (.list (collectReps (convertType escr md) cn.children)) ∧
    collectReps (convertType escr md) cn.children =
      ((cn.children.map XElem.text).takeWhile Option.isSome).filterMap
        (fun t => t.map (convertType escr md)) ∧
    decodeCol false md3 cell3 = .ok (.list ["a", "b"]) := by
  have hne : md.maxrepeat ≠ 1 := by omega
  exact ⟨by simp [decodeCol, hne], collectReps_eq_takeWhile _ _, rfl⟩

/-- Witness for C3 at the concrete repetition-count-3 cell. -/
theorem repeating_decode_witness :
    (1 : Int) < md3.maxrepeat ∧ decodeCol false md3 cell3 = .ok (.list ["a", "b"]) :=
  ⟨by decide, (repeating_decode false md3 cell3 (by decide)).2.2⟩

/-- C9: an unrecognized TYPE tag never makes field-metadata decoding fail;
it yields the same field — in particular the `str` kind and hence the same
decode behavior — as TYPE="TEXT". -/
theorem unknown_type_defaults_to_text (attrs : List (String × String))
    (name mrS eok t : String) (mr : Int)
    (h1 : assocGet? attrs "NAME" = some name)
    (h2 : assocGet? attrs "MAXREPEAT" = some mrS)
    (h3 : pyInt mrS = some mr)
    (h4 : assocGet? attrs "EMPTYOK" = some eok)
    (h5 : assocGet? attrs "TYPE" = some t)
    (h6 : assocGet? FMField.DTYPES t = none) :
    FMField.init attrs = .ok ⟨name, mr, eok == "YES", PyType.str⟩ ∧
    FMField.init (dictSet attrs "TYPE" "TEXT") = .ok ⟨name, mr, eok == "YES", PyType.str⟩ := by
  constructor
  · simp [FMField.init, dictGetE, pyIntE, bind, Except.bind, pure, Except.pure, h1, h2, h3, h4, h5, h6]
  · have g1 : assocGet? (dictSet attrs "TYPE" "TEXT") "NAME" = some name := by
      rw [assocGet_dictSet_ne _ _ _ _ (by decide), h1]
    have g2 : assocGet? (dictSet attrs "TYPE" "TEXT") "MAXREPEAT" = some mrS := by
      rw [assocGet_dictSet_ne _ _ _ _ (by decide), h2]
    have g4 : assocGet? (dictSet attrs "TYPE" "TEXT") "EMPTYOK" = some eok := by
      rw [assocGet_dictSet_ne _ _ _ _ (by decide), h4]
    have g5 : assocGet? (dictSet attrs "TYPE" "TEXT") "TYPE" = some "TEXT" :=
      assocGet_dictSet_self _ _ _
    simp [FMField.init, dictGetE, pyIntE, bind, Except.bind, pure, Except.pure, g1, g2, h3, g4, g5, FMField.DTYPES, assocGet?]

/-- Witness for C9 at concrete attributes with TYPE="BLOB". -/
theorem unknown_type_defaults_to_text_witness :
    FMField.init attrsBlob = .ok ⟨"N", 2, true, PyType.str⟩ ∧
    FMField.init (dictSet attrsBlob "TYPE" "TEXT") = .ok ⟨"N", 2, true, PyType.str⟩ := by
  have h := unknown_type_defaults_to_text attrsBlob "N" "2" "YES" "BLOB" 2
    (by decide) (by decide) (by decide) (by decide) (by decide) (by decide)
  simpa using h


/-- Every character of `digitChar` is an ASCII decimal digit. -/
theorem digitChar_range (d : Nat) : 48 ≤ (digitChar d).toNat ∧ (digitChar d).toNat ≤ 57 := by
  unfold digitChar
  repeat' split
  all_goals decide

/-- Characters emitted by `natDecimalAux` are digits or come from the
accumulator. -/
theorem natDecimalAux_mem (fuel : Nat) : ∀ (n : Nat) (acc : List Char) (c : Char),
    c ∈ natDecimalAux fuel n acc → (48 ≤ c.toNat ∧ c.toNat ≤ 57) ∨ c ∈ acc := by
  induction fuel with
  | zero => intro n acc c hc; exact Or.inr hc
  | succ fuel ih =>
    intro n acc c hc
    rw [natDecimalAux] at hc
    split at hc
    · rcases List.mem_cons.mp hc with h | h
      · exact Or.inl (h ▸ digitChar_range n)
      · exact Or.inr h
    · rcases ih (n / 10) (digitChar (n % 10) :: acc) c hc with h | h
      · exact Or.inl h
      · rcases List.mem_cons.mp h with h2 | h2
        · exact Or.inl (h2 ▸ digitChar_range (n % 10))
        · exact Or.inr h2

/-- Every character of `natDecimal` is an ASCII decimal digit. -/
theorem natDecimal_mem (n : Nat) (c : Char) (hc : c ∈ natDecimal n) :
    48 ≤ c.toNat ∧ c.toNat ≤ 57 := by
  rcases natDecimalAux_mem (n + 1) n [] c hc with h | h
  · exact h
  · simp at h

/-- All output of the escape pipeline is ASCII. -/
theorem escape_unicode_ascii (v : String) (q : Bool) (c : Char)
    (hc : c ∈ (escape_unicode v q).data) : c.toNat ≤ 127 := by
  simp only [escape_unicode, List.mem_flatMap] at hc
  obtain ⟨d, hd, hcd⟩ := hc
  obtain ⟨e, _, hde⟩ := hd
  have hd127 : d.toNat ≤ 127 → c.toNat ≤ 127 := by
    intro h
    rw [aposL] at hcd
    split at hcd
    · simp only [List.mem_cons, List.not_mem_nil, or_false] at hcd ⊢
      rcases hcd with h1 | h1 | h1 | h1 | h1 <;> subst h1 <;> decide
    · rcases List.mem_singleton.mp hcd with h1
      exact h1 ▸ h
  rw [xmlRefL] at hde
  split at hde
  · rcases List.mem_singleton.mp hde with h1
    subst h1
    exact hd127 (by assumption)
  · rcases List.mem_cons.mp hde with h1 | h1
    · exact hd127 (by subst h1; decide)
    · rcases List.mem_cons.mp h1 with h2 | h2
      · exact hd127 (by subst h2; decide)
      · rcases List.mem_append.mp h2 with h3 | h3
        · have := natDecimal_mem _ _ h3
          exact hd127 (by omega)
        · rcases List.mem_singleton.mp h3 with h4
          exact hd127 (by subst h4; decide)

/-- C4 counterexample: with escaping enabled, the value `<&'é` decodes to
`&lt;&amp;&#x27;&#233;`; the apostrophe is rendered as `&#x27;` — the
entity `&#39;` claimed by the spec appears nowhere in the output, because
the `replace(b"'", b'&#39;')` step runs after `html.escape` has already
removed every literal apostrophe. -/
theorem escape_renders_x27_not_39 :
    decodeCol true mdText cellEsc = .ok (.str "&lt;&amp;&#x27;&#233;") ∧
    ¬ List.IsInfix "&#39;".data "&lt;&amp;&#x27;&#233;".data := by
  constructor
  · rfl
  · decide

/-- C4 (amended): with escaping enabled, a text-like value decodes through
`escape_unicode`: the output is pure ASCII, `<` and `&` are
entity-escaped, the apostrophe is rendered as `&#x27;` and non-ASCII
characters become decimal numeric character references; with escaping
disabled, values pass through unmodified. -/
theorem escape_output (md : FMField) (v : String) (h : md.dtype = PyType.str) :
    convertType true md = (escape_unicode · true) ∧
    convertType false md v = v ∧
    (∀ c ∈ (escape_unicode v true).data, c.toNat ≤ 127) ∧
    escape_unicode "<&\x27é" true = "&lt;&amp;&#x27;&#233;" := by
  refine ⟨by simp [convertType, h], rfl, fun c hc => escape_unicode_ascii v true c hc, rfl⟩

/-- Witness for the amended C4 at the concrete text field and value. -/
theorem escape_output_witness :
    convertType true mdText = (escape_unicode · true) ∧
    escape_unicode "<&\x27é" true = "&lt;&amp;&#x27;&#233;" := by
  have h := escape_output mdText "x" rfl
  exact ⟨h.1, h.2.2.2⟩


/-- The head of a `dropWhile` result fails the predicate. -/
theorem dropWhile_head_not (p : Char → Bool) (l : List Char) (c : Char)
    (h : (l.dropWhile p).head? = some c) : p c = false := by
  induction l with
  | nil => simp at h
  | cons a rest ih =>
    rw [List.dropWhile_cons] at h
    split at h
    · exact ih h
    · simp at h
      subst h
      simp_all

/-- Appending on the right preserves a known head. -/
theorem head?_append_left {l t : List Char} {c : Char} (h : l.head? = some c) :
    (l ++ t).head? = some c := by
  cases l with
  | nil => simp at h
  | cons a l2 => simpa using h

/-- The head of a stripped list is not whitespace. -/
theorem pyStripL_head (l : List Char) (c : Char)
    (h : (pyStripL l).head? = some c) : isPySpace c = false := by
  have hs : List.IsSuffix ((l.dropWhile isPySpace).reverse.dropWhile isPySpace)
      ((l.dropWhile isPySpace).reverse) := List.dropWhile_suffix isPySpace
  obtain ⟨t, ht⟩ := hs
  have hm : pyStripL l ++ t.reverse = l.dropWhile isPySpace := by
    have h2 := congrArg List.reverse ht
    simpa [pyStripL, List.reverse_append] using h2
  apply dropWhile_head_not isPySpace l c
  rw [← hm]
  exact head?_append_left h

/-- The last element of a stripped list is not whitespace. -/
theorem pyStripL_last (l : List Char) (c : Char)
    (h : (pyStripL l).getLast? = some c) : isPySpace c = false := by
  rw [pyStripL, List.getLast?_reverse] at h
  exact dropWhile_head_not isPySpace _ c h

/-- `dropWhile` is the identity on a list whose head fails the
predicate. -/
theorem dropWhile_eq_self_of_head (p : Char → Bool) (x : List Char)
    (h : ∀ c, x.head? = some c → p c = false) : x.dropWhile p = x := by
  cases x with
  | nil => rfl
  | cons a t =>
    rw [List.dropWhile_cons, h a rfl]
    simp

/-- Stripping is idempotent. -/
theorem pyStripL_idem (l : List Char) : pyStripL (pyStripL l) = pyStripL l := by
  have h1 : (pyStripL l).dropWhile isPySpace = pyStripL l :=
    dropWhile_eq_self_of_head _ _ (pyStripL_head l)
  have h2 : (pyStripL l).reverse.dropWhile isPySpace = (pyStripL l).reverse :=
    dropWhile_eq_self_of_head _ _ (by
      intro c hc
      rw [List.head?_reverse] at hc
      exact pyStripL_last l c hc)
  rw [pyStripL, h1, h2, List.reverse_reverse]

/-- A `flatMap` over nonempty images of a nonempty list is nonempty. -/
theorem flatMap_ne_nil (l : List Char) (F : Char → List Char)
    (hF : ∀ c, F c ≠ []) (hl : l ≠ []) : l.flatMap F ≠ [] := by
  cases l with
  | nil => exact absurd rfl hl
  | cons a t =>
    rw [List.flatMap_cons]
    simp [List.append_eq_nil, hF a]

/-- Head of a `flatMap` with nonempty images. -/
theorem head?_flatMap (l : List Char) (F : Char → List Char) (hF : ∀ c, F c ≠ []) :
    (l.flatMap F).head? = l.head?.bind fun c => (F c).head? := by
  cases l with
  | nil => simp
  | cons a rest =>
    rw [List.flatMap_cons, List.head?_append]
    cases hfa : F a with
    | nil => exact absurd hfa (hF a)
    | cons x xs => simp [hfa]

/-- Last element of a `flatMap` with nonempty images. -/
theorem getLast?_flatMap (l : List Char) (F : Char → List Char) (hF : ∀ c, F c ≠ []) :
    (l.flatMap F).getLast? = l.getLast?.bind fun c => (F c).getLast? := by
  induction l with
  | nil => simp
  | cons a rest ih =>
    cases rest with
    | nil => simp [List.flatMap_cons]
    | cons b rest2 =>
      rw [List.flatMap_cons, List.getLast?_append, ih, List.getLast?_cons_cons]
      cases hL : (b :: rest2).getLast? with
      | none => simp [List.getLast?_eq_none_iff] at hL
      | some x =>
        cases hg : (F x).getLast? with
        | none =>
          exfalso
          exact hF x (by simpa [List.getLast?_eq_none_iff] using hg)
        | some y => simp [hL, hg]

/-- The per-character escape map never produces the empty list. -/
theorem escPipe_ne_nil (q : Bool) (c : Char) : escPipe q c ≠ [] := by
  apply flatMap_ne_nil
  · intro d
    rw [aposL]
    split <;> simp
  · apply flatMap_ne_nil
    · intro d
      rw [xmlRefL]
      split
      · simp
      · simp
    · rw [escapeCharL]
      repeat' split
      all_goals simp


/-- Membership from a known last element. -/
theorem mem_of_getLast?_eq {l : List Char} {c : Char} (h : l.getLast? = some c) : c ∈ l := by
  obtain ⟨hne, heq⟩ := List.mem_getLast?_eq_getLast (show c ∈ l.getLast? by simp [h])
  rw [heq]
  exact List.getLast_mem hne

/-- A whitespace-free character maps to whitespace-free output under the
escape pipeline. -/
theorem escPipe_nonspace (q : Bool) (c : Char) (hc : isPySpace c = false)
    (d : Char) (hd : d ∈ escPipe q c) : isPySpace d = false := by
  simp only [escPipe, List.mem_flatMap] at hd
  obtain ⟨e, he, hde⟩ := hd
  obtain ⟨f, hf, hef⟩ := he
  have step3 : ∀ x : Char, isPySpace x = false → d ∈ aposL x → isPySpace d = false := by
    intro x hx hmem
    rw [aposL] at hmem
    split at hmem
    · simp only [List.mem_cons, List.not_mem_nil, or_false] at hmem
      rcases hmem with h | h | h | h | h <;> subst h <;> decide
    · rcases List.mem_singleton.mp hmem with h
      exact h ▸ hx
  have step2 : ∀ x : Char, isPySpace x = false → e ∈ xmlRefL x → isPySpace e = false := by
    intro x hx hmem
    rw [xmlRefL] at hmem
    split at hmem
    · rcases List.mem_singleton.mp hmem with h
      exact h ▸ hx
    · rcases List.mem_cons.mp hmem with h | h
      · subst h; decide
      · rcases List.mem_cons.mp h with h2 | h2
        · subst h2; decide
        · rcases List.mem_append.mp h2 with h3 | h3
          · have := natDecimal_mem _ _ h3
            simp only [isPySpace, List.mem_cons, List.not_mem_nil, or_false,
              decide_eq_false_iff_not]
            omega
          · rcases List.mem_singleton.mp h3 with h4
            subst h4; decide
  have stepf : isPySpace f = false := by
    rw [escapeCharL] at hf
    have ent : ∀ (t : List Char), (t = "&amp;".data ∨ t = "&lt;".data ∨ t = "&gt;".data ∨
        t = "&quot;".data ∨ t = "&#x27;".data) → f ∈ t → isPySpace f = false := by
      intro t ht hmem
      rcases ht with h | h | h | h | h <;> subst h <;> fin_cases hmem <;> decide
    split at hf
    · exact ent _ (by simp) hf
    · split at hf
      · exact ent _ (by simp) hf
      · split at hf
        · exact ent _ (by simp) hf
        · split at hf
          · exact ent _ (by simp) hf
          · split at hf
            · exact ent _ (by simp) hf
            · rcases List.mem_singleton.mp hf with h
              exact h ▸ hc
  exact step3 e (step2 f stepf hef) hde

/-- `escape_unicode` as a single `flatMap` of the composite per-character
map over the stripped input. -/
theorem escape_unicode_data (s : String) (q : Bool) :
    (escape_unicode s q).data = (pyStripL s.data).flatMap (escPipe q) := by
  show (((pyStripL s.data).flatMap (escapeCharL q)).flatMap xmlRefL).flatMap aposL = _
  rw [List.flatMap_assoc, List.flatMap_assoc]
  apply List.flatMap_congr
  intro c _
  rw [escPipe, List.flatMap_assoc]

/-- C10: `escape_unicode` strips surrounding whitespace before escaping —
it is invariant under pre-stripping, and its output never starts or ends
with a whitespace character even when the raw value does. -/
theorem escape_strips_whitespace (s : String) (c d : Char) :
    escape_unicode s true = escape_unicode (pyStrip s) true ∧
    ((escape_unicode s true).data.head? = some c → isPySpace c = false) ∧
    ((escape_unicode s true).data.getLast? = some d → isPySpace d = false) := by
  refine ⟨?_, ?_, ?_⟩
  · simp only [escape_unicode, pyStrip]
    rw [show pyStripL (⟨pyStripL s.data⟩ : String).data = pyStripL s.data from
      pyStripL_idem s.data]
  · intro h
    rw [escape_unicode_data, head?_flatMap _ _ (escPipe_ne_nil true)] at h
    obtain ⟨a, ha, hfa⟩ := Option.bind_eq_some.mp h
    have ha2 : isPySpace a = false := pyStripL_head s.data a ha
    have hmem : c ∈ escPipe true a := by
      cases hx : escPipe true a with
      | nil => rw [hx] at hfa; simp at hfa
      | cons y ys =>
        rw [hx] at hfa
        simp only [List.head?_cons, Option.some.injEq] at hfa
        subst hfa
        exact List.mem_cons_self _ _
    exact escPipe_nonspace true a ha2 c hmem
  · intro h
    rw [escape_unicode_data, getLast?_flatMap _ _ (escPipe_ne_nil true)] at h
    obtain ⟨a, ha, hfa⟩ := Option.bind_eq_some.mp h
    have ha2 : isPySpace a = false := pyStripL_last s.data a ha
    exact escPipe_nonspace true a ha2 d (mem_of_getLast?_eq hfa)

/-- Witness for C10 at a concrete value with surrounding whitespace. -/
theorem escape_strips_whitespace_witness :
    escape_unicode " < " true = escape_unicode (pyStrip " < ") true ∧
    isPySpace '&' = false ∧ isPySpace ';' = false := by
  have h := escape_strips_whitespace " < " '&' ';'
  exact ⟨h.1, h.2.1 (by decide), h.2.2 (by decide)⟩


/-- Every Unicode scalar value is below 0x110000. -/
theorem char_toNat_lt (c : Char) : c.toNat < 1114112 := by
  rcases c.valid with h | ⟨_, h2⟩
  · exact Nat.lt_trans h (by norm_num)
  · exact h2

/-- UTF-8 bytes are bytes. -/
theorem utf8Bytes_lt (c : Char) (b : Nat) (hb : b ∈ utf8Bytes c) : b < 256 := by
  have hv := char_toNat_lt c
  simp only [utf8Bytes] at hb
  split at hb
  · simp only [List.mem_singleton] at hb
    omega
  · split at hb
    · simp only [List.mem_cons, List.not_mem_nil, or_false] at hb
      rcases hb with h | h <;> omega
    · split at hb
      · simp only [List.mem_cons, List.not_mem_nil, or_false] at hb
        rcases hb with h | h | h <;> omega
      · simp only [List.mem_cons, List.not_mem_nil, or_false] at hb
        rcases hb with h | h | h | h <;> omega

/-- Unfolding: one ASCII byte. -/
theorem utf8DecodeList_ascii (b : Nat) (rest : List Nat) (h : b < 0x80) :
    utf8DecodeList (b :: rest) = Char.ofNat b :: utf8DecodeList rest := by
  rw [utf8DecodeList, if_pos h]

/-- Unfolding: a well-formed two-byte sequence. -/
theorem utf8DecodeList_two (b b1 : Nat) (rest : List Nat)
    (h1 : ¬ b < 0x80) (h2 : ¬ b < 0xC0) (h3 : b < 0xE0) (h4 : isCont b1 = true) :
    utf8DecodeList (b :: b1 :: rest) =
      Char.ofNat ((b - 0xC0) * 0x40 + (b1 - 0x80)) :: utf8DecodeList rest := by
  rw [utf8DecodeList, if_neg h1, if_neg h2, if_pos h3]
  simp [utf8Cont1, contVal, h4]

/-- Unfolding: a well-formed three-byte sequence. -/
theorem utf8DecodeList_three (b b1 b2 : Nat) (rest : List Nat)
    (h1 : ¬ b < 0x80) (h2 : ¬ b < 0xC0) (h3 : ¬ b < 0xE0) (h4 : b < 0xF0)
    (h5 : isCont b1 = true) (h6 : isCont b2 = true) :
    utf8DecodeList (b :: b1 :: b2 :: rest) =
      Char.ofNat ((b - 0xE0) * 0x1000 + (b1 - 0x80) * 0x40 + (b2 - 0x80)) ::
        utf8DecodeList rest := by
  rw [utf8DecodeList, if_neg h1, if_neg h2, if_neg h3, if_pos h4]
  simp [utf8Cont2, contVal, h5, h6]

/-- Unfolding: a well-formed four-byte sequence. -/
theorem utf8DecodeList_four (b b1 b2 b3 : Nat) (rest : List Nat)
    (h1 : ¬ b < 0x80) (h2 : ¬ b < 0xC0) (h3 : ¬ b < 0xE0) (h4 : ¬ b < 0xF0)
    (h5 : isCont b1 = true) (h6 : isCont b2 = true) (h7 : isCont b3 = true) :
    utf8DecodeList (b :: b1 :: b2 :: b3 :: rest) =
      Char.ofNat ((b - 0xF0) * 0x40000 + (b1 - 0x80) * 0x1000 + (b2 - 0x80) * 0x40 +
        (b3 - 0x80)) :: utf8DecodeList rest := by
  rw [utf8DecodeList, if_neg h1, if_neg h2, if_neg h3, if_neg h4]
  simp [utf8Cont3, contVal, h5, h6, h7]

/-- Decoding the UTF-8 encoding of a character prepended to any byte list
yields the character followed by the decode of the rest. -/
theorem utf8_decode_encode (c : Char) (bs : List Nat) :
    utf8DecodeList (utf8Bytes c ++ bs) = c :: utf8DecodeList bs := by
  have hv := char_toNat_lt c
  simp only [utf8Bytes]
  by_cases h1 : c.toNat < 0x80
  · rw [if_pos h1, List.cons_append, List.nil_append, utf8DecodeList_ascii _ _ h1,
      Char.ofNat_toNat]
  · rw [if_neg h1]
    by_cases h2 : c.toNat < 0x800
    · rw [if_pos h2, List.cons_append, List.cons_append, List.nil_append]
      rw [utf8DecodeList_two _ _ _ (by omega) (by omega) (by omega)
        (by simp only [isCont, decide_eq_true_eq]; omega)]
      rw [show (0xC0 + c.toNat / 0x40 - 0xC0) * 0x40 + (0x80 + c.toNat % 0x40 - 0x80)
        = c.toNat by omega, Char.ofNat_toNat]
    · rw [if_neg h2]
      by_cases h3 : c.toNat < 0x10000
      · rw [if_pos h3, List.cons_append, List.cons_append, List.cons_append,
          List.nil_append]
        rw [utf8DecodeList_three _ _ _ _ (by omega) (by omega) (by omega) (by omega)
          (by simp only [isCont, decide_eq_true_eq]; omega)
          (by simp only [isCont, decide_eq_true_eq]; omega)]
        rw [show (0xE0 + c.toNat / 0x1000 - 0xE0) * 0x1000 +
          (0x80 + c.toNat / 0x40 % 0x40 - 0x80) * 0x40 + (0x80 + c.toNat % 0x40 - 0x80)
          = c.toNat by omega, Char.ofNat_toNat]
      · rw [if_neg h3, List.cons_append, List.cons_append, List.cons_append,
          List.cons_append, List.nil_append]
        rw [utf8DecodeList_four _ _ _ _ _ (by omega) (by omega) (by omega) (by omega)
          (by simp only [isCont, decide_eq_true_eq]; omega)
          (by simp only [isCont, decide_eq_true_eq]; omega)
          (by simp only [isCont, decide_eq_true_eq]; omega)]
        rw [show (0xF0 + c.toNat / 0x40000 - 0xF0) * 0x40000 +
          (0x80 + c.toNat / 0x1000 % 0x40 - 0x80) * 0x1000 +
          (0x80 + c.toNat / 0x40 % 0x40 - 0x80) * 0x40 + (0x80 + c.toNat % 0x40 - 0x80)
          = c.toNat by omega, Char.ofNat_toNat]

/-- Decoding a concatenation of UTF-8 encodings yields the characters. -/
theorem utf8DecodeList_flatMap (l : List Char) :
    utf8DecodeList (l.flatMap utf8Bytes) = l := by
  induction l with
  | nil => rw [List.flatMap_nil, utf8DecodeList]
  | cons c rest ih => rw [List.flatMap_cons, utf8_decode_encode, ih]


/-- `hexVal` inverts `hexUpper` on nibbles. -/
theorem hexVal_hexUpper (d : Nat) (h : d < 16) : hexVal (hexUpper d) = some d := by
  interval_cases d <;> decide

/-- Code-point facts about `hexUpper` output: never `%`, `+`, `&` or
`=`. -/
theorem hexUpper_toNat (d : Nat) (h : d < 16) :
    (hexUpper d).toNat ≠ 37 ∧ (hexUpper d).toNat ≠ 43 ∧ (hexUpper d).toNat ≠ 38 ∧
      (hexUpper d).toNat ≠ 61 := by
  interval_cases d <;> decide

/-- Code-point facts about safe characters: never `%`, `+`, `&` or `=`. -/
theorem isAlwaysSafe_toNat (c : Char) (h : isAlwaysSafe c = true) :
    c.toNat ≠ 37 ∧ c.toNat ≠ 43 ∧ c.toNat ≠ 38 ∧ c.toNat ≠ 61 := by
  simp only [isAlwaysSafe, decide_eq_true_eq] at h
  omega

/-- `plusToSpace` only changes `+`. -/
theorem plusToSpace_eq_self (c : Char) (h : c.toNat ≠ 43) : plusToSpace c = c := by
  rw [plusToSpace, if_neg h]

/-- Scanning a literal (non-`%`) character. -/
theorem unquoteTokens_ch (c : Char) (l : List Char) (h : ¬ c.toNat = 37) :
    unquoteTokens (c :: l) = .ch c :: unquoteTokens l := by
  rw [unquoteTokens.eq_def]
  simp only [h, if_false]

/-- Scanning one percent escape. -/
theorem unquoteTokens_pct (h l : Char) (rest : List Char) (x y : Nat)
    (hh : hexVal h = some x) (hl : hexVal l = some y) :
    unquoteTokens ('%' :: h :: l :: rest) = .byte (16 * x + y) :: unquoteTokens rest := by
  rw [unquoteTokens.eq_def]
  simp [hh, hl]

/-- Percent escapes contain no `+`, so the plus-to-space step leaves them
alone. -/
theorem pctEncodeByte_map_plusToSpace (b : Nat) (hb : b < 256) :
    (pctEncodeByte b).map plusToSpace = pctEncodeByte b := by
  have h1 := hexUpper_toNat (b / 16) (by omega)
  have h2 := hexUpper_toNat (b % 16) (by omega)
  simp [pctEncodeByte, plusToSpace_eq_self _ h1.2.1, plusToSpace_eq_self _ h2.2.1,
    plusToSpace_eq_self '%' (by decide)]

/-- Scanning a run of percent escapes yields the corresponding byte
tokens. -/
theorem tokens_pct (bs : List Nat) (hbs : ∀ b ∈ bs, b < 256) (l : List Char) :
    unquoteTokens (bs.flatMap pctEncodeByte ++ l) = bs.map QTok.byte ++ unquoteTokens l := by
  induction bs with
  | nil => simp
  | cons b bs ih =>
    have hb : b < 256 := hbs b (by simp)
    rw [List.flatMap_cons, List.append_assoc, pctEncodeByte, List.cons_append,
      List.cons_append, List.cons_append, List.nil_append]
    rw [unquoteTokens_pct _ _ _ _ _ (hexVal_hexUpper _ (by omega)) (hexVal_hexUpper _ (by omega))]
    rw [show 16 * (b / 16) + b % 16 = b by omega]
    rw [ih (fun x hx => hbs x (by simp [hx]))]
    simp

/-- Scanning the plus-to-space image of one quoted character yields its
token run, independently of what follows. -/
theorem tokens_quoteChunk (c : Char) (l : List Char) :
    unquoteTokens ((quotePlusChar c).map plusToSpace ++ l) = quoteTok c ++ unquoteTokens l := by
  by_cases hs : isAlwaysSafe c = true
  · have hn := isAlwaysSafe_toNat c hs
    rw [quotePlusChar, if_pos hs, quoteTok, if_pos (Or.inl hs)]
    simp only [List.map_cons, List.map_nil, plusToSpace_eq_self c hn.2.1,
      List.cons_append, List.nil_append]
    rw [unquoteTokens_ch c _ hn.1]
  · by_cases h32 : c.toNat = 32
    · have hc : c = ' ' := by
        rw [← Char.ofNat_toNat c, h32]
      subst hc
      rw [quotePlusChar, if_neg hs, if_pos (show (' ').toNat = 32 from rfl), quoteTok,
        if_pos (Or.inr (show (' ').toNat = 32 from rfl))]
      simp only [List.map_cons, List.map_nil, List.cons_append, List.nil_append]
      rw [show plusToSpace '+' = ' ' by decide]
      rw [unquoteTokens_ch ' ' _ (by decide)]
    · rw [quotePlusChar, if_neg hs, if_neg h32, quoteTok,
        if_neg (by simp [hs, h32])]
      have hmap : ((utf8Bytes c).flatMap pctEncodeByte).map plusToSpace =
          (utf8Bytes c).flatMap pctEncodeByte := by
        rw [List.map_flatMap]
        exact List.flatMap_congr fun b hb =>
          pctEncodeByte_map_plusToSpace b (utf8Bytes_lt c b hb)
      rw [hmap, tokens_pct _ (fun b hb => utf8Bytes_lt c b hb)]

/-- Scanning the plus-to-space image of a fully quoted string. -/
theorem tokens_quote (cs : List Char) :
    unquoteTokens ((cs.flatMap quotePlusChar).map plusToSpace) = cs.flatMap quoteTok := by
  induction cs with
  | nil => rw [List.flatMap_nil, List.map_nil, List.flatMap_nil, unquoteTokens]
  | cons c cs ih =>
    rw [List.flatMap_cons, List.map_append, tokens_quoteChunk, ih, List.flatMap_cons]

/-- Byte tokens accumulate into the pending run. -/
theorem collapse_bytes (bs : List Nat) : ∀ (pend : List Nat) (ts : List QTok),
    collapseTokens pend (bs.map QTok.byte ++ ts) = collapseTokens (pend ++ bs) ts := by
  induction bs with
  | nil => intro pend ts; simp
  | cons b bs ih =>
    intro pend ts
    rw [List.map_cons, List.cons_append, collapseTokens, ih, List.append_assoc]
    rfl

/-- Collapsing the token image of a string appends it to the decode of the
pending bytes. -/
theorem collapse_main (cs : List Char) : ∀ (l : List Char),
    collapseTokens (l.flatMap utf8Bytes) (cs.flatMap quoteTok) = l ++ cs := by
  induction cs with
  | nil =>
    intro l
    rw [List.flatMap_nil, collapseTokens, utf8DecodeList_flatMap, List.append_nil]
  | cons c cs ih =>
    intro l
    rw [List.flatMap_cons, quoteTok]
    split
    · rw [List.cons_append, List.nil_append, collapseTokens, utf8DecodeList_flatMap]
      have h0 := ih []
      simp only [List.flatMap_nil] at h0
      rw [h0]
      simp
    · rw [collapse_bytes]
      have hfm : l.flatMap utf8Bytes ++ utf8Bytes c = (l ++ [c]).flatMap utf8Bytes := by
        rw [List.flatMap_append]
        simp
      rw [hfm, ih (l ++ [c])]
      simp

/-- Decoding inverts encoding: `unquote_plus (quote_plus s) = s`. -/
theorem unquote_quote (s : String) : unquote_plus (quote_plus s) = s := by
  show (⟨collapseTokens [] (unquoteTokens ((s.data.flatMap quotePlusChar).map plusToSpace))⟩ :
    String) = s
  rw [tokens_quote]
  have h := collapse_main s.data []
  simp only [List.flatMap_nil, List.nil_append] at h
  rw [h]


/-- Quoted output never contains `&` or `=`. -/
theorem quote_plus_chars (s : String) (c : Char) (hc : c ∈ (quote_plus s).data) :
    c.toNat ≠ 38 ∧ c.toNat ≠ 61 := by
  simp only [quote_plus, List.mem_flatMap] at hc
  obtain ⟨a, _, hca⟩ := hc
  rw [quotePlusChar] at hca
  split at hca
  · rcases List.mem_singleton.mp hca with h
    subst h
    have hsafe := isAlwaysSafe_toNat c (by assumption)
    exact ⟨hsafe.2.2.1, hsafe.2.2.2⟩
  · split at hca
    · rcases List.mem_singleton.mp hca with h
      subst h
      decide
    · simp only [List.mem_flatMap] at hca
      obtain ⟨b, hb, hcb⟩ := hca
      have hb256 := utf8Bytes_lt a b hb
      have h1 := hexUpper_toNat (b / 16) (by omega)
      have h2 := hexUpper_toNat (b % 16) (by omega)
      simp only [pctEncodeByte, List.mem_cons, List.not_mem_nil, or_false] at hcb
      rcases hcb with h | h | h
      · subst h; decide
      · subst h; exact ⟨h1.2.2.1, h1.2.2.2⟩
      · subst h; exact ⟨h2.2.2.1, h2.2.2.2⟩

/-- `splitOnChar` never returns the empty list of groups. -/
theorem splitOnChar_ne_nil (sep : Char) (l : List Char) : splitOnChar sep l ≠ [] := by
  cases l with
  | nil => simp [splitOnChar]
  | cons c rest =>
    rw [splitOnChar]
    cases splitOnChar sep rest with
    | nil => simp
    | cons g gs =>
      by_cases hc : c = sep
      · simp [hc]
      · simp [hc]

/-- A separator-free list is one group. -/
theorem splitOnChar_no_sep (sep : Char) (a : List Char) (h : ∀ c ∈ a, c ≠ sep) :
    splitOnChar sep a = [a] := by
  induction a with
  | nil => rfl
  | cons c rest ih =>
    rw [splitOnChar, ih (fun x hx => h x (by simp [hx]))]
    simp [h c (by simp)]

/-- Splitting around one separator after a separator-free prefix. -/
theorem splitOnChar_append (sep : Char) (a b : List Char) (h : ∀ c ∈ a, c ≠ sep) :
    splitOnChar sep (a ++ sep :: b) = a :: splitOnChar sep b := by
  induction a with
  | nil =>
    rw [List.nil_append, splitOnChar]
    cases hb : splitOnChar sep b with
    | nil => exact absurd hb (splitOnChar_ne_nil sep b)
    | cons g gs => simp [hb]
  | cons c rest ih =>
    rw [List.cons_append, splitOnChar, ih (fun x hx => h x (by simp [hx]))]
    simp [h c (by simp)]

/-- `splitFirst` around the first separator. -/
theorem splitFirst_append (sep : Char) (a b : List Char) (h : ∀ c ∈ a, c ≠ sep) :
    splitFirst sep (a ++ sep :: b) = (a, b) := by
  induction a with
  | nil =>
    rw [List.nil_append, splitFirst]
    simp
  | cons c rest ih =>
    rw [List.cons_append, splitFirst]
    simp [h c (by simp), ih (fun x hx => h x (by simp [hx]))]

/-- Encoding then decoding a two-pair form recovers exactly the two
adjacent pairs. -/
theorem formDecode_two (k1 v1 k2 v2 : String) :
    formDecode (urlencodePairs [(k1, v1), (k2, v2)]) = [(k1, v1), (k2, v2)] := by
  have hdata : (urlencodePairs [(k1, v1), (k2, v2)]).data =
      ((quote_plus k1).data ++ '=' :: (quote_plus v1).data) ++ '&' ::
        ((quote_plus k2).data ++ '=' :: (quote_plus v2).data) := by
    show (quote_plus k1 ++ "=" ++ quote_plus v1 ++ "&" ++
      (quote_plus k2 ++ "=" ++ quote_plus v2)).data = _
    simp [String.data_append]
  have hseg : ∀ k v : String, ∀ c : Char,
      c ∈ (quote_plus k).data ++ '=' :: (quote_plus v).data → c ≠ '&' := by
    intro k v c hc heq
    subst heq
    rcases List.mem_append.mp hc with h | h
    · exact (quote_plus_chars k _ h).1 (by decide)
    · rcases List.mem_cons.mp h with h2 | h2
      · exact absurd h2 (by decide)
      · exact (quote_plus_chars v _ h2).1 (by decide)
  have hnk : ∀ k : String, ∀ c : Char, c ∈ (quote_plus k).data → c ≠ '=' := by
    intro k c hc heq
    subst heq
    exact (quote_plus_chars k _ hc).2 (by decide)
  rw [formDecode, hdata, splitOnChar_append _ _ _ (hseg k1 v1),
    splitOnChar_no_sep _ _ (hseg k2 v2)]
  simp only [List.map_cons, List.map_nil]
  rw [splitFirst_append _ _ _ (hnk k1), splitFirst_append _ _ _ (hnk k2)]
  show [(unquote_plus (quote_plus k1), unquote_plus (quote_plus v1)),
    (unquote_plus (quote_plus k2), unquote_plus (quote_plus v2))] = _
  rw [unquote_quote, unquote_quote, unquote_quote, unquote_quote]

/-- C7: `add_db_param` with operator `bw` appends exactly the two adjacent
pairs `(field, value)` and `(field.op, bw)` to the Pending Parameters
(with no operator, only the single `(field, value)` pair), and
form-encoding those two pairs then decoding the produced form data yields
them back, adjacent and in order. -/
theorem add_db_param_roundtrip (st : FMState) (field value : String) :
    (FM.add_db_param st field value (some "bw"))._dbparams =
      st._dbparams ++ [(field, value), (field ++ ".op", "bw")] ∧
    (FM.add_db_param st field value none)._dbparams = st._dbparams ++ [(field, value)] ∧
    formDecode (urlencodePairs [(field, value), (field ++ ".op", "bw")]) =
      [(field, value), (field ++ ".op", "bw")] := by
  refine ⟨?_, ?_, formDecode_two _ _ _ _⟩
  · simp [FM.add_db_param, FM.dbparamsAppend]
  · simp [FM.add_db_param, FM.dbparamsAppend]

end Fmkr
